import Mathlib

/-!
Verification of the document-retrieval (RAG) pipeline of the
Autonomus-knowledge-worker repository, shallowly embedded from
src/rag/chunk_processor.py, src/rag/vector_store.py, src/rag/embedding.py and
src/rag/retriever.py.

Modelling conventions:
- Python text is modelled as List Char; Python floats as rationals;
- Python dicts are insertion-ordered association lists;
- external collaborators (the ChromaDB collection, the sentence-transformers
  encoder, nltk, the wall clock) are passed in as explicit parameters or
  abstracted behind function arguments; everything else follows the source
  line by line.
-/

set_option linter.unusedVariables false

namespace Py

/-- Python str.strip with no arguments: remove leading and trailing
whitespace. -/
def strip (cs : List Char) : List Char :=
  ((cs.dropWhile Char.isWhitespace).reverse.dropWhile Char.isWhitespace).reverse

/-- Helper for splitWS, accumulating the current word in reverse. -/
def splitWSAux : List Char → List Char → List (List Char)
  | [], acc => if acc = [] then [] else [acc.reverse]
  | c :: rest, acc =>
    if c.isWhitespace then
      if acc = [] then splitWSAux rest [] else acc.reverse :: splitWSAux rest []
    else
      splitWSAux rest (c :: acc)

/-- Python str.split with no arguments: split on runs of whitespace and
discard empty pieces. -/
def splitWS (cs : List Char) : List (List Char) := splitWSAux cs []

/-- Python list indexing text(i): negative indices count from the end.
Out-of-range indexing raises IndexError in Python; that case is modelled by
a whitespace placeholder and is not reachable in the runs proved below. -/
def char_at (cs : List Char) (i : Int) : Char :=
  let j : Int := if i < 0 then (cs.length : Int) + i else i
  if j < 0 then ' ' else cs.getD j.toNat ' '

/-- Python slicing text(start:stop) with unit step: negative endpoints count
from the end of the list and the result is clamped to the list. -/
def slice (cs : List Char) (start stop : Int) : List Char :=
  let n : Int := cs.length
  let s : Nat := (if start < 0 then n + start else min start n).toNat
  let e : Nat := (if stop < 0 then n + stop else min stop n).toNat
  (cs.take e).drop s

/-- Python str.rfind of a single character: highest index holding it, or -1
when it does not occur. -/
def rfind (cs : List Char) (c : Char) : Int :=
  match cs.reverse.findIdx? (fun x => x = c) with
  | some i => (cs.length : Int) - 1 - i
  | none => -1

end Py

namespace EmbeddingModel

/-- EmbeddingModel.clean_text (embedding.py): empty or whitespace-only input
becomes the empty string; otherwise the input is stripped and then rebuilt by
joining its whitespace-separated tokens with the empty separator, which
removes every whitespace character. -/
def clean_text (text : List Char) : List Char :=
  if text = [] ∨ Py.strip text = [] then []
  else (Py.splitWS (Py.strip text)).flatten

/-- EmbeddingModel.encode_text (embedding.py), list-input case: every input
text is passed through clean_text and the cleaned batch is handed to the
underlying sentence-transformers model, abstracted here as the function
argument model. -/
def encode_text {E : Type} (model : List (List Char) → E) (texts : List (List Char)) : E :=
  model (texts.map clean_text)

end EmbeddingModel

namespace ChunkProcessor

/-- ASCII reading of the regex class backslash-w: letters, digits and the
underscore. -/
def is_word_char (c : Char) : Bool := c.isAlphanum || c = '_'

/-- Characters kept by the allow-list regex in ChunkProcessor._clean_text:
word characters, whitespace and the punctuation . , ! ? ; : ( ) - plus the
double quote; anything else is replaced by a space. -/
def is_allowed_char (c : Char) : Bool :=
  is_word_char c || c.isWhitespace || c = '.' || c = ',' || c = '!' || c = '?' ||
    c = ';' || c = ':' || c = '(' || c = ')' || c = '-' || c = '"'

/-- The regex substitution collapsing every whitespace run to a single space
(re.sub of backslash-s-plus in _clean_text).  The flag records whether the
previous character was whitespace. -/
def collapse_ws : List Char → Bool → List Char
  | [], _ => []
  | c :: rest, inWS =>
    if c.isWhitespace then
      if inWS then collapse_ws rest true else ' ' :: collapse_ws rest true
    else c :: collapse_ws rest false

/-- ChunkProcessor._clean_text: collapse whitespace runs, blank out
disallowed characters, re-join the whitespace-separated words with single
spaces, and strip. -/
def clean_text (text : List Char) : List Char :=
  if text = [] then []
  else
    let step1 := collapse_ws text false
    let step2 := step1.map (fun c => if is_allowed_char c then c else ' ')
    let step3 := List.intercalate [' '] (Py.splitWS step2)
    Py.strip step3

/-- Sentence-ending characters of the fallback splitter regex. -/
def is_sentence_end (c : Char) : Bool := c = '.' || c = '!' || c = '?'

/-- re.split on runs of sentence-ending characters, keeping empty pieces at
run boundaries (as re.split does).  The flag records whether the scanner is
inside a delimiter run. -/
def split_sentence_runs : List Char → List Char → Bool → List (List Char)
  | [], acc, _ => [acc.reverse]
  | c :: rest, acc, inDelim =>
    if is_sentence_end c then
      if inDelim then split_sentence_runs rest acc true
      else acc.reverse :: split_sentence_runs rest [] true
    else split_sentence_runs rest (c :: acc) false

/-- ChunkProcessor._simple_sentence_split: split on sentence-ending runs,
strip each piece, and keep only pieces longer than 10 characters.  This is
the in-repository fallback tokenizer; the primary nltk tokenizer is an
external library and is not part of this code base. -/
def simple_sentence_split (text : List Char) : List (List Char) :=
  ((split_sentence_runs text [] false).map Py.strip).filter
    (fun s => !s.isEmpty && decide (10 < s.length))

/-- The window computation of one _chunk_by_characters iteration: slice out
chunk_size characters from start, and when the character right after the
window exists and is not whitespace, snap the window back to its last space
provided that space lies beyond 0.8 of chunk_size (0.8 is the float four
fifths; rfind returns -1 when there is no space, which never passes the
comparison).  Returns the chunk text together with the end position. -/
def chunk_window (chunk_size : Nat) (text : List Char) (start : Int) :
    List Char × Int :=
  let stop0 : Int := start + chunk_size
  let chunk0 := Py.slice text start stop0
  if stop0 < (text.length : Int) ∧ (Py.char_at text stop0).isWhitespace = false then
    let last_space := Py.rfind chunk0 ' '
    if 5 * last_space > 4 * (chunk_size : Int) then
      (Py.slice chunk0 0 last_space, start + last_space)
    else (chunk0, stop0)
  else (chunk0, stop0)

/-- The while loop of ChunkProcessor._chunk_by_characters.  The fuel
argument bounds the number of iterations, each iteration consuming one unit.
In configurations where the loop makes progress (the advance
chunk_size - chunk_overlap is positive) a fuel of text.length + 1 is enough;
in the remaining configurations the Python loop never terminates and the
model simply truncates the chunk list. -/
def chunk_by_characters_loop (chunk_size chunk_overlap : Nat) (text : List Char) :
    Nat → Int → List (List Char)
  | 0, _ => []
  | fuel + 1, start =>
    if start < (text.length : Int) then
      let step := chunk_window chunk_size text start
      if (text.length : Int) ≤ step.2 then [step.1]
      else step.1 :: chunk_by_characters_loop chunk_size chunk_overlap text fuel
        (step.2 - chunk_overlap)
    else []

/-- ChunkProcessor._chunk_by_characters: character windows of chunk_size,
snapped back to the last space when that space lies in the last fifth of the
window, advancing by chunk_size - chunk_overlap. -/
def chunk_by_characters (chunk_size chunk_overlap : Nat) (text : List Char) :
    List (List Char) :=
  chunk_by_characters_loop chunk_size chunk_overlap text (text.length + 1) 0

/-- The sentence-packing loop of ChunkProcessor._chunk_by_sentences: grow the
current chunk while appending the next sentence (joined by one space) stays
within chunk_size; otherwise flush the current chunk and restart from the
sentence, hard-splitting it by characters when it alone exceeds chunk_size. -/
def pack_sentences_loop (chunk_size chunk_overlap : Nat) :
    List (List Char) → List Char → List (List Char)
  | [], current => if current = [] then [] else [current]
  | sentence :: rest, current =>
    let potential := if current = [] then sentence else current ++ ' ' :: sentence
    if potential.length ≤ chunk_size then
      pack_sentences_loop chunk_size chunk_overlap rest potential
    else
      let flushed : List (List Char) := if current = [] then [] else [current]
      if chunk_size < sentence.length then
        let char_chunks := chunk_by_characters chunk_size chunk_overlap sentence
        flushed ++ char_chunks.dropLast ++
          pack_sentences_loop chunk_size chunk_overlap rest (char_chunks.getLastD [])
      else
        flushed ++ pack_sentences_loop chunk_size chunk_overlap rest sentence

/-- The overlap source in ChunkProcessor._add_overlap: the trailing
chunk_overlap characters of the previous chunk when it is longer than the
overlap, else the whole previous chunk.  Python slicing with index -0 yields
the whole string, hence the special case for chunk_overlap = 0. -/
def overlap_source (chunk_overlap : Nat) (previous_chunk : List Char) : List Char :=
  if chunk_overlap < previous_chunk.length then
    if chunk_overlap = 0 then previous_chunk
    else previous_chunk.drop (previous_chunk.length - chunk_overlap)
  else previous_chunk

/-- Python str.split on the two-character separator consisting of a dot and a
space, as used on the overlap text. -/
def split_dot_space : List Char → List Char → List (List Char)
  | [], acc => [acc.reverse]
  | '.' :: ' ' :: rest, acc => acc.reverse :: split_dot_space rest []
  | c :: rest, acc => split_dot_space rest (c :: acc)

/-- The overlap text prepended to a chunk: the overlap source, shortened to
its last dot-space separated piece when there are several. -/
def overlap_text (chunk_overlap : Nat) (previous_chunk : List Char) : List Char :=
  let t := overlap_source chunk_overlap previous_chunk
  let pieces := split_dot_space t []
  if 1 < pieces.length then pieces.getLastD [] else t

/-- The indexed loop of ChunkProcessor._add_overlap, pairing each chunk with
its predecessor in the pre-overlap list. -/
def add_overlap_loop (chunk_overlap : Nat) (previous_chunk : List Char) :
    List (List Char) → List (List Char)
  | [] => []
  | cur :: rest =>
    (overlap_text chunk_overlap previous_chunk ++ ' ' :: cur) ::
      add_overlap_loop chunk_overlap cur rest

/-- ChunkProcessor._add_overlap: the first chunk is kept as is, every later
chunk is prefixed with overlap text from its predecessor joined by one
space; lists of at most one chunk are returned unchanged. -/
def add_overlap (chunk_overlap : Nat) (chunks : List (List Char)) : List (List Char) :=
  match chunks with
  | [] => []
  | c :: rest => if rest = [] then [c] else c :: add_overlap_loop chunk_overlap c rest

/-- ChunkProcessor._chunk_by_sentences: tokenize into sentences, pack them
greedily, then add inter-chunk overlap. -/
def chunk_by_sentences (chunk_size chunk_overlap : Nat) (text : List Char) :
    List (List Char) :=
  add_overlap chunk_overlap
    (pack_sentences_loop chunk_size chunk_overlap (simple_sentence_split text) [])

/-- The chunk metadata written by ChunkProcessor.process_document.  The
created_at wall-clock timestamp and the source_metadata pass-through are
omitted: neither is derived from the chunked text. -/
structure ChunkMeta where
  chunk_id : String
  chunk_index : Nat
  source_document : String
  chunk_size : Nat
  word_count : Nat
deriving DecidableEq, Repr

/-- A produced chunk: stripped content plus metadata. -/
structure Chunk where
  content : List Char
  metadata : ChunkMeta
deriving DecidableEq, Repr

/-- The chunk dictionary built for pre-filter index i in process_document. -/
def mk_chunk (source_path : String) (i : Nat) (chunk_text : List Char) : Chunk :=
  { content := Py.strip chunk_text
    metadata :=
      { chunk_id := source_path ++ "_chunk_" ++ toString i
        chunk_index := i
        source_document := source_path
        chunk_size := chunk_text.length
        word_count := (Py.splitWS chunk_text).length } }

/-- The emit loop of process_document: walk the pre-filter chunk list with its
enumerate index i, skip chunks whose stripped text is under 50 characters,
and stop once max_chunks_per_doc chunks have been emitted. -/
def emit_loop (max_chunks : Nat) (source_path : String) :
    List (List Char) → Nat → Nat → List Chunk
  | [], _, _ => []
  | chunk_text :: rest, i, count =>
    if (Py.strip chunk_text).length < 50 then
      emit_loop max_chunks source_path rest (i + 1) count
    else
      let chunk := mk_chunk source_path i chunk_text
      if max_chunks ≤ count + 1 then [chunk]
      else chunk :: emit_loop max_chunks source_path rest (i + 1) (count + 1)

/-- The emit loop without the max_chunks_per_doc cap: every pre-filter chunk
whose stripped text reaches 50 characters is emitted. -/
def emit_nocap (source_path : String) : List (List Char) → Nat → List Chunk
  | [], _ => []
  | chunk_text :: rest, i =>
    if (Py.strip chunk_text).length < 50 then emit_nocap source_path rest (i + 1)
    else mk_chunk source_path i chunk_text :: emit_nocap source_path rest (i + 1)

/-- The pre-filter chunk list computed inside process_document, before the
under-50-characters filter and the per-document cap. -/
def pre_chunks (chunk_size chunk_overlap : Nat) (preserve_sentences : Bool)
    (content : List Char) : List (List Char) :=
  if preserve_sentences then chunk_by_sentences chunk_size chunk_overlap (clean_text content)
  else chunk_by_characters chunk_size chunk_overlap (clean_text content)

/-- ChunkProcessor.process_document: reject empty or whitespace-only content,
clean the text, chunk it, then emit the filtered, capped chunk list with
metadata. -/
def process_document (chunk_size chunk_overlap max_chunks : Nat)
    (preserve_sentences : Bool) (source_path : String) (content : List Char) :
    List Chunk :=
  if content = [] ∨ Py.strip content = [] then []
  else emit_loop max_chunks source_path
    (pre_chunks chunk_size chunk_overlap preserve_sentences content) 0 0

/-- What process_document would emit with the per-document cap removed: the
full filtered chunk sequence the segmentation of the document produces. -/
def emitted_nocap (chunk_size chunk_overlap : Nat) (preserve_sentences : Bool)
    (source_path : String) (content : List Char) : List Chunk :=
  if content = [] ∨ Py.strip content = [] then []
  else emit_nocap source_path
    (pre_chunks chunk_size chunk_overlap preserve_sentences content) 0

end ChunkProcessor

namespace VectorStore

/-- Dynamically typed Python values as they appear in caller-supplied
metadata: scalars, lists, dicts (insertion-ordered key-value lists) and a
catch-all for any other object, carrying the text its str() call returns.
Python floats are modelled as rationals. -/
inductive PyVal where
  | str (s : String)
  | int (n : Int)
  | float (q : ℚ)
  | bool (b : Bool)
  | pynone
  | list (xs : List PyVal)
  | dict (kvs : List (String × PyVal))
  | other (s : String)

mutual

/-- Python repr for the elements shown inside str() of a container: strings
gain quotes, scalars render as in str.  The decimal rendering of floats is
abstracted by the rational literal. -/
def pyRepr : PyVal → String
  | .str s => "\x27" ++ s ++ "\x27"
  | .int n => toString n
  | .float q => toString q
  | .bool b => if b then "True" else "False"
  | .pynone => "None"
  | .list xs => "[" ++ String.intercalate ", " (pyReprList xs) ++ "]"
  | .dict kvs => "\x7b" ++ String.intercalate ", " (pyDictItems kvs) ++ "\x7d"
  | .other s => s

/-- repr of each element of a list. -/
def pyReprList : List PyVal → List String
  | [] => []
  | x :: xs => pyRepr x :: pyReprList xs

/-- repr of each key-value pair of a dict. -/
def pyDictItems : List (String × PyVal) → List String
  | [] => []
  | (k, v) :: rest => ("\x27" ++ k ++ "\x27: " ++ pyRepr v) :: pyDictItems rest

end

/-- Python str: like repr except that a top-level string renders without
quotes; containers use repr for their elements, as Python does. -/
def pyStr : PyVal → String
  | .str s => s
  | .int n => toString n
  | .float q => toString q
  | .bool b => if b then "True" else "False"
  | .pynone => "None"
  | .list xs => "[" ++ String.intercalate ", " (pyReprList xs) ++ "]"
  | .dict kvs => "\x7b" ++ String.intercalate ", " (pyDictItems kvs) ++ "\x7d"
  | .other s => s

/-- The isinstance check of _flatten_metadata: str, int, float, bool or None. -/
def isScalarVal : PyVal → Bool
  | .str _ => true
  | .int _ => true
  | .float _ => true
  | .bool _ => true
  | .pynone => true
  | _ => false

/-- Python dict assignment flattened(new_key) = value on an
insertion-ordered association list: overwrite in place when the key exists,
append otherwise. -/
def dinsert : List (String × PyVal) → String → PyVal → List (String × PyVal)
  | [], k, v => [(k, v)]
  | (k0, v0) :: rest, k, v =>
    if k0 = k then (k0, v) :: rest else (k0, v0) :: dinsert rest k v

/-- Insertion of one non-dict value in _flatten_recursive: scalar values
(and None) pass through unchanged, a list is serialized to a comma-joined
string of its elements in str form, and any other value is rendered through
str. -/
def flatten_one (acc : List (String × PyVal)) (new_key : String) : PyVal → List (String × PyVal)
  | .list xs => dinsert acc new_key (.str (String.intercalate ", " (xs.map pyStr)))
  | .other s => dinsert acc new_key (.str (pyStr (.other s)))
  | v => dinsert acc new_key v

/-- Key joining in _flatten_recursive: underscore-join the prefix and the
key, except that an empty prefix (the top level) leaves the key bare. -/
def join_key (pfx key : String) : String :=
  if pfx = "" then key else pfx ++ "_" ++ key

/-- The inner _flatten_recursive of VectorStore._flatten_metadata: walk a
dict in insertion order, recursing into dict values with the joined key and
inserting every other value via flatten_one.  A non-dict argument (only
possible at the top call) is stored under the bare prefix, as a scalar or
through str. -/
def flatten_recursive : PyVal → String → List (String × PyVal) → List (String × PyVal)
  | .dict [], _, acc => acc
  | .dict ((key, .dict kvs) :: rest), pfx, acc =>
    flatten_recursive (.dict rest) pfx (flatten_recursive (.dict kvs) (join_key pfx key) acc)
  | .dict ((key, value) :: rest), pfx, acc =>
    flatten_recursive (.dict rest) pfx (flatten_one acc (join_key pfx key) value)
  | obj, pfx, acc =>
    dinsert acc pfx (if isScalarVal obj then obj else .str (pyStr obj))

/-- The final compatibility pass of _flatten_metadata: any value that is not
a scalar and not None is converted through str.  After the recursive walk
this is the identity, but the source keeps it as a safety net. -/
def ensure_compatible (m : List (String × PyVal)) : List (String × PyVal) :=
  m.map (fun kv => if isScalarVal kv.2 then kv else (kv.1, .str (pyStr kv.2)))

/-- VectorStore._flatten_metadata: run the recursive walk from an empty
prefix and an empty accumulator, then the compatibility pass. -/
def flatten_metadata (metadata : PyVal) : List (String × PyVal) :=
  ensure_compatible (flatten_recursive metadata "" [])

/-- Scalar metadata values as stored by ChromaDB after flattening: string,
int, float (modelled as a rational), bool or None. -/
inductive Scalar where
  | s (v : String)
  | i (v : Int)
  | f (v : ℚ)
  | b (v : Bool)
  | none
deriving DecidableEq, Repr

/-- Python equality on scalar metadata values: numeric values compare across
the bool, int and float types (True == 1 == 1.0 in Python); strings and None
compare only to themselves. -/
def Scalar.pyEq : Scalar → Scalar → Bool
  | .s a, .s v => a = v
  | .i a, .i v => a = v
  | .f a, .f v => a = v
  | .b a, .b v => a = v
  | .none, .none => true
  | .i a, .f v => (a : ℚ) = v
  | .f a, .i v => a = (v : ℚ)
  | .b a, .i v => (if a then (1 : Int) else 0) = v
  | .i a, .b v => a = (if v then (1 : Int) else 0)
  | .b a, .f v => (if a then (1 : ℚ) else 0) = v
  | .f a, .b v => a = (if v then (1 : ℚ) else 0)
  | _, _ => false

/-- One row of a ChromaDB query result, as consumed by the zip loop of
VectorStore.search_similar: a document, its stored (flat) metadata and its
distance to the query embedding.  The ChromaDB query itself is an external
call; its rows are taken as input here. -/
structure QueryRow where
  document : List Char
  metadata : List (String × Scalar)
  distance : ℚ
deriving DecidableEq, Repr

/-- One element of the list returned by VectorStore.search_similar. -/
structure SearchDoc where
  document : List Char
  metadata : List (String × Scalar)
  similarity_score : ℚ
  distance : ℚ
deriving DecidableEq, Repr

/-- The distance-to-similarity transform of search_similar:
similarity = 1 / (1 + distance). -/
def sim_of_dist (distance : ℚ) : ℚ := 1 / (1 + distance)

/-- The result-processing loop of search_similar: derive each similarity as
sim_of_dist of the distance and keep exactly the rows whose similarity
reaches similarity_threshold, in order. -/
def process_query_rows (similarity_threshold : ℚ) : List QueryRow → List SearchDoc
  | [] => []
  | r :: rest =>
    let similarity := sim_of_dist r.distance
    if similarity_threshold ≤ similarity then
      { document := r.document, metadata := r.metadata,
        similarity_score := similarity, distance := r.distance } ::
        process_query_rows similarity_threshold rest
    else process_query_rows similarity_threshold rest

/-- One stored entry of the backing collection. -/
structure StoredDoc where
  id : String
  document : List Char
  embedding : List ℚ
  metadata : List (String × PyVal)

/-- The backing ChromaDB collection, modelled as its list of entries.  A
store whose collection handle was never opened carries Option.none. -/
abbrev Collection := List StoredDoc

/-- The message of the RuntimeError raised by every operation on an
uninitialized store. -/
def not_ready_msg : String := "Vector store not initialized"

/-- The try body of VectorStore.add_documents: raise when the collection is
unset; otherwise generate doc_n ids from the current collection size when
ids are omitted, flatten each metadata dict (non-dict metadata becomes a
content string), and append the entries to the collection (the ChromaDB add
call, modelled as list append). -/
def add_documents_body (collection : Option Collection) (documents : List (List Char))
    (embeddings : List (List ℚ)) (metadata : List PyVal) (ids : Option (List String)) :
    Except String (Bool × Collection) :=
  match collection with
  | Option.none => .error not_ready_msg
  | some coll =>
    let ids' := match ids with
      | some l => l
      | Option.none =>
        (List.range documents.length).map (fun i => "doc_" ++ toString (coll.length + i))
    let flattened := metadata.map (fun m =>
      match m with
      | .dict kvs => flatten_metadata (.dict kvs)
      | v => [("content", PyVal.str (pyStr v))])
    let entries := documents.zip (embeddings.zip (flattened.zip ids')) |>.map
      (fun de => { id := de.2.2.2, document := de.1, embedding := de.2.1,
                   metadata := de.2.2.1 : StoredDoc })
    .ok (true, coll ++ entries)

/-- VectorStore.add_documents: the try body with its except clause, which
logs and returns False, leaving the collection as it was. -/
def add_documents (collection : Option Collection) (documents : List (List Char))
    (embeddings : List (List ℚ)) (metadata : List PyVal) (ids : Option (List String)) :
    Bool × Option Collection :=
  match add_documents_body collection documents embeddings metadata ids with
  | .ok (b, coll) => (b, some coll)
  | .error _ => (false, collection)

/-- The try body of VectorStore.search_similar: raise when the collection is
unset; otherwise process the rows returned by the external ChromaDB query
(passed in as query_rows, at most top_k of them). -/
def search_similar_body (collection : Option Collection) (query_rows : List QueryRow)
    (top_k : Int) (similarity_threshold : ℚ) : Except String (List SearchDoc) :=
  match collection with
  | Option.none => .error not_ready_msg
  | some _ => .ok (process_query_rows similarity_threshold query_rows)

/-- VectorStore.search_similar: the try body with its except clause, which
logs and returns the empty list. -/
def search_similar (collection : Option Collection) (query_rows : List QueryRow)
    (top_k : Int) (similarity_threshold : ℚ) : List SearchDoc :=
  match search_similar_body collection query_rows top_k similarity_threshold with
  | .ok docs => docs
  | .error _ => []

/-- The try body of VectorStore.delete_document: raise when the collection is
unset; otherwise delete the entries with the given ids. -/
def delete_document_body (collection : Option Collection) (ids : List String) :
    Except String (Bool × Collection) :=
  match collection with
  | Option.none => .error not_ready_msg
  | some coll => .ok (true, coll.filter (fun d => !ids.contains d.id))

/-- VectorStore.delete_document with its except clause: False on failure,
collection unchanged. -/
def delete_document (collection : Option Collection) (ids : List String) :
    Bool × Option Collection :=
  match delete_document_body collection ids with
  | .ok (b, coll) => (b, some coll)
  | .error _ => (false, collection)

/-- The try body of VectorStore.clear_collection: raise when the collection
is unset; otherwise drop the collection and recreate it empty. -/
def clear_collection_body (collection : Option Collection) :
    Except String (Bool × Collection) :=
  match collection with
  | Option.none => .error not_ready_msg
  | some _ => .ok (true, ([] : Collection))

/-- VectorStore.clear_collection with its except clause: False on failure,
collection unchanged. -/
def clear_collection (collection : Option Collection) : Bool × Option Collection :=
  match clear_collection_body collection with
  | .ok (b, coll) => (b, some coll)
  | .error _ => (false, collection)

end VectorStore

namespace RAGRetriever

open VectorStore (Scalar SearchDoc)

/-- The query_match_info dictionary built by RAGRetriever._analyze_query_match. -/
structure QueryMatchInfo where
  exact_word_matches : Nat
  total_query_words : Nat
  match_percentage : ℚ
  matched_words : List (List Char)
deriving DecidableEq, Repr

/-- RAGRetriever._analyze_query_match: lower-case both texts, split the query
into words, and count the query words occurring verbatim in the document. -/
def analyze_query_match (document query : List Char) : QueryMatchInfo :=
  let doc_lower := document.map Char.toLower
  let query_words := Py.splitWS (query.map Char.toLower)
  let exact_matches := query_words.filter (fun w => decide (w <:+: doc_lower))
  { exact_word_matches := exact_matches.length
    total_query_words := query_words.length
    match_percentage :=
      if query_words = [] then 0 else (exact_matches.length : ℚ) / query_words.length
    matched_words := exact_matches }

/-- One element of the list returned by RAGRetriever.retrieve. -/
structure RetrievalResult where
  content : List Char
  metadata : List (String × Scalar)
  similarity_score : ℚ
  distance : ℚ
  relevance_rank : Nat
  query_match_info : QueryMatchInfo
deriving DecidableEq, Repr

/-- Python truthiness of the optional filter_metadata argument: None and the
empty dict are falsy, filtering is applied only otherwise. -/
def filter_truthy (fm : Option (List (String × Scalar))) : Bool :=
  match fm with
  | Option.none => false
  | some l => !l.isEmpty

/-- The per-result filter check of _process_search_results: every filter key
must be present in the result metadata with a Python-equal value. -/
def matches_filter (fm : List (String × Scalar)) (md : List (String × Scalar)) : Bool :=
  fm.all (fun kv =>
    match md.lookup kv.1 with
    | some v => VectorStore.Scalar.pyEq v kv.2
    | Option.none => false)

/-- The loop of RAGRetriever._process_search_results, with the running count
of results kept so far (relevance_rank is that count plus one). -/
def process_search_results_loop (original_query : List Char)
    (fm : Option (List (String × Scalar))) :
    List SearchDoc → Nat → List RetrievalResult
  | [], _ => []
  | doc :: rest, count =>
    if filter_truthy fm && !matches_filter (fm.getD []) doc.metadata then
      process_search_results_loop original_query fm rest count
    else
      { content := doc.document
        metadata := doc.metadata
        similarity_score := doc.similarity_score
        distance := doc.distance
        relevance_rank := count + 1
        query_match_info := analyze_query_match doc.document original_query } ::
        process_search_results_loop original_query fm rest (count + 1)

/-- RAGRetriever._process_search_results: filter the similarity-ordered
search results by metadata and assign 1-based ranks in output order. -/
def process_search_results (similar_docs : List SearchDoc) (original_query : List Char)
    (filter_metadata : Option (List (String × Scalar))) : List RetrievalResult :=
  process_search_results_loop original_query filter_metadata similar_docs 0

/-- Python top_k or default: None and 0 are falsy and fall back to the
configured default_top_k. -/
def py_or_int (x : Option Int) (dflt : Int) : Int :=
  match x with
  | Option.none => dflt
  | some v => if v = 0 then dflt else v

/-- Python similarity_threshold or default: None and 0.0 are falsy and fall
back to the configured similarity_threshold. -/
def py_or_rat (x : Option ℚ) (dflt : ℚ) : ℚ :=
  match x with
  | Option.none => dflt
  | some v => if v = 0 then dflt else v

/-- RAGRetriever._clean_query: re-join whitespace-separated words with single
spaces, blank out characters outside the word/punctuation allow-list, and
strip. -/
def clean_query (query : List Char) : List Char :=
  let q1 := List.intercalate [' '] (Py.splitWS query)
  let q2 := q1.map (fun c =>
    if ChunkProcessor.is_word_char c || c.isWhitespace || c = '.' || c = ',' ||
        c = '!' || c = '?' then c else ' ')
  Py.strip q2

/-- RAGRetriever.retrieve.  The components downstream of the guards (query
encoding and the vector-store search, both long-running external calls) are
abstracted as the pipeline argument, which receives the cleaned, truncated
query and the effective top_k and similarity_threshold; an exception from
the pipeline is caught and turned into the empty list, mirroring the try /
except of the source. -/
def retrieve (is_ready : Bool) (default_top_k : Int) (default_threshold : ℚ)
    (max_query_length : Nat) (query : List Char) (top_k : Option Int)
    (similarity_threshold : Option ℚ) (filter_metadata : Option (List (String × Scalar)))
    (pipeline : List Char → Int → ℚ → Except String (List SearchDoc)) :
    List RetrievalResult :=
  if is_ready = false then []
  else if query = [] ∨ Py.strip query = [] then []
  else
    let top_k' := py_or_int top_k default_top_k
    let threshold := py_or_rat similarity_threshold default_threshold
    let cleaned := clean_query query
    let cleaned := if max_query_length < cleaned.length then cleaned.take max_query_length
      else cleaned
    match pipeline cleaned top_k' threshold with
    | .ok docs => process_search_results docs query filter_metadata
    | .error _ => []

/-- A chunk dictionary as consumed by RAGRetriever.index_chunks: whether the
content key is present, the content text, and the chunk_id metadata entry
when present. -/
structure IndexChunk where
  has_content : Bool
  content : List Char
  chunk_id : Option String
deriving DecidableEq, Repr

/-- RAGRetriever.index_chunks.  The downstream work (batch embedding and the
vector-store add, both external calls) is abstracted as the add argument on
the extracted texts; an exception is caught and turned into False. -/
def index_chunks (is_ready : Bool) (chunks : List IndexChunk)
    (add : List (List Char) → Except String Bool) : Bool :=
  if is_ready = false then false
  else if chunks = [] then false
  else
    let texts := (chunks.filter (fun c =>
      c.has_content && !(c.content = [] || (Py.strip c.content).isEmpty))).map (·.content)
    if texts = [] then false
    else
      match add texts with
      | .ok b => b
      | .error _ => false

end RAGRetriever

/-- A concrete document of two 60-character sentences, used to exhibit the
exact chunk-size bound. -/
def doc6060 : List Char :=
  List.replicate 60 'a' ++ '.' :: (List.replicate 60 'b' ++ ['.'])

/-- A concrete document of a 45-character sentence followed by a
55-character one; with chunk_size 60 its first pre-filter chunk stays under
50 characters and is filtered out while the second survives. -/
def doc4555 : List Char :=
  List.replicate 45 'a' ++ '.' :: (List.replicate 55 'b' ++ ['.'])

/-- The first chunk emitted for doc4555 under chunk_size 60, overlap 10. -/
def c4_first_chunk : ChunkProcessor.Chunk :=
  (ChunkProcessor.process_document 60 10 100 true "doc" doc4555).headD
    (ChunkProcessor.mk_chunk "doc" 0 [])

/-- A concrete query row at distance 1 and the search document built from it. -/
def c1_row : VectorStore.QueryRow :=
  { document := [], metadata := [], distance := 1 }

/-- The search document the processing loop builds from c1_row. -/
def c1_doc : VectorStore.SearchDoc :=
  { document := [], metadata := [], similarity_score := VectorStore.sim_of_dist 1,
    distance := 1 }

/-!  Helper lemmas. -/

theorem list_length_dropWhile_le {α : Type} (p : α → Bool) (l : List α) :
    (l.dropWhile p).length ≤ l.length := by
  induction l with
  | nil => simp
  | cons a l ih =>
    by_cases h : p a <;> simp [List.dropWhile, h] <;> omega

namespace Py

theorem splitWSAux_flatten (cs : List Char) :
    ∀ acc, (splitWSAux cs acc).flatten = acc.reverse ++ cs.filter (fun c => !c.isWhitespace) := by
  induction cs with
  | nil =>
    intro acc
    by_cases h : acc = [] <;> simp [splitWSAux, h]
  | cons c rest ih =>
    intro acc
    by_cases hw : c.isWhitespace
    · by_cases h : acc = [] <;> simp [splitWSAux, hw, h, ih]
    · simp [splitWSAux, hw, ih (c :: acc)]

theorem splitWS_flatten (cs : List Char) :
    (splitWS cs).flatten = cs.filter (fun c => !c.isWhitespace) := by
  simpa using splitWSAux_flatten cs []

theorem filter_dropWhile_whitespace (cs : List Char) :
    (cs.dropWhile Char.isWhitespace).filter (fun c => !c.isWhitespace) =
      cs.filter (fun c => !c.isWhitespace) := by
  induction cs with
  | nil => simp
  | cons c rest ih =>
    by_cases hw : c.isWhitespace <;> simp [List.dropWhile, List.filter, hw, ih]

theorem filter_strip (cs : List Char) :
    (strip cs).filter (fun c => !c.isWhitespace) = cs.filter (fun c => !c.isWhitespace) := by
  unfold strip
  rw [List.filter_reverse, filter_dropWhile_whitespace, List.filter_reverse,
    List.reverse_reverse, filter_dropWhile_whitespace]

theorem strip_length_le (cs : List Char) : (strip cs).length ≤ cs.length := by
  unfold strip
  have h1 := list_length_dropWhile_le Char.isWhitespace cs
  have h2 := list_length_dropWhile_le Char.isWhitespace
    (cs.dropWhile Char.isWhitespace).reverse
  simp only [List.length_reverse] at *
  omega

theorem slice_length_le_sub (cs : List Char) (start stop : Int) (h : start ≤ stop) :
    ((slice cs start stop).length : Int) ≤ stop - start := by
  unfold slice
  simp only [List.length_drop, List.length_take]
  split_ifs <;> omega

theorem slice_length_le_self (cs : List Char) (start stop : Int) :
    (slice cs start stop).length ≤ cs.length := by
  unfold slice
  simp only [List.length_drop, List.length_take]
  split_ifs <;> omega

end Py

theorem embedding_clean_text_eq_filter (text : List Char) :
    EmbeddingModel.clean_text text = text.filter (fun c => !c.isWhitespace) := by
  unfold EmbeddingModel.clean_text
  rcases em (text = [] ∨ Py.strip text = []) with h | h
  · rw [if_pos h]
    rcases h with h | h
    · simp [h]
    · have := Py.filter_strip text
      rw [h] at this
      simp only [List.filter_nil] at this
      exact this
  · rw [if_neg h, Py.splitWS_flatten, Py.filter_strip]

theorem ensure_compatible_all_scalar (m : List (String × VectorStore.PyVal)) :
    (VectorStore.ensure_compatible m).all (fun kv => VectorStore.isScalarVal kv.2) = true := by
  rw [List.all_eq_true]
  intro x hx
  rw [VectorStore.ensure_compatible, List.mem_map] at hx
  obtain ⟨kv, hkv, rfl⟩ := hx
  cases h2 : kv.2 <;> simp [VectorStore.isScalarVal, h2]

theorem process_query_rows_eq_filter_map (θ : ℚ) (rows : List VectorStore.QueryRow) :
    VectorStore.process_query_rows θ rows =
      (rows.filter (fun r => θ ≤ VectorStore.sim_of_dist r.distance)).map
        (fun r => { document := r.document, metadata := r.metadata,
                    similarity_score := VectorStore.sim_of_dist r.distance,
                    distance := r.distance }) := by
  induction rows with
  | nil => rfl
  | cons r rest ih =>
    by_cases h : θ ≤ VectorStore.sim_of_dist r.distance <;>
      simp [VectorStore.process_query_rows, h, ih]

theorem process_loop_skip_cond (fm : Option (List (String × VectorStore.Scalar)))
    (md : List (String × VectorStore.Scalar)) :
    (RAGRetriever.filter_truthy fm && !RAGRetriever.matches_filter (fm.getD []) md) =
      !((fm.getD []).all (fun kv =>
          match md.lookup kv.1 with
          | some v => VectorStore.Scalar.pyEq v kv.2
          | Option.none => false)) := by
  rcases fm with _ | l
  · rfl
  · cases l <;> simp [RAGRetriever.filter_truthy, RAGRetriever.matches_filter]

theorem process_loop_map_rank (q : List Char)
    (fm : Option (List (String × VectorStore.Scalar))) :
    ∀ (docs : List VectorStore.SearchDoc) (count : Nat),
      (RAGRetriever.process_search_results_loop q fm docs count).map
          (fun r => r.relevance_rank) =
        List.range' (count + 1)
          (RAGRetriever.process_search_results_loop q fm docs count).length := by
  intro docs
  induction docs with
  | nil => intro count; rfl
  | cons d rest ih =>
    intro count
    by_cases h : (RAGRetriever.filter_truthy fm &&
        !RAGRetriever.matches_filter (fm.getD []) d.metadata) = true
    · simp only [RAGRetriever.process_search_results_loop, h, if_true]
      exact ih count
    · simp only [RAGRetriever.process_search_results_loop, h, if_false, Bool.false_eq_true,
        List.map_cons, List.length_cons, List.range'_succ]
      rw [ih (count + 1)]

theorem process_loop_map_data (q : List Char)
    (fm : Option (List (String × VectorStore.Scalar))) :
    ∀ (docs : List VectorStore.SearchDoc) (count : Nat),
      (RAGRetriever.process_search_results_loop q fm docs count).map
          (fun r => (r.content, r.metadata, r.similarity_score, r.distance)) =
        (docs.filter (fun d => (fm.getD []).all (fun kv =>
            match d.metadata.lookup kv.1 with
            | some v => VectorStore.Scalar.pyEq v kv.2
            | Option.none => false))).map
          (fun d => (d.document, d.metadata, d.similarity_score, d.distance)) := by
  intro docs
  induction docs with
  | nil => intro count; rfl
  | cons d rest ih =>
    intro count
    by_cases hK : ((fm.getD []).all (fun kv =>
        match d.metadata.lookup kv.1 with
        | some v => VectorStore.Scalar.pyEq v kv.2
        | Option.none => false)) = true
    · have hcond : (RAGRetriever.filter_truthy fm &&
          !RAGRetriever.matches_filter (fm.getD []) d.metadata) = false := by
        rw [process_loop_skip_cond, hK]; rfl
      simp only [RAGRetriever.process_search_results_loop, hcond, Bool.false_eq_true,
        if_false, List.map_cons, List.filter_cons, hK, if_true]
      rw [ih (count + 1)]
    · have hcond : (RAGRetriever.filter_truthy fm &&
          !RAGRetriever.matches_filter (fm.getD []) d.metadata) = true := by
        rw [process_loop_skip_cond]
        simp only [Bool.not_eq_true] at hK
        rw [hK]; rfl
      simp only [RAGRetriever.process_search_results_loop, hcond, if_true,
        List.filter_cons]
      rw [ih count]
      simp only [Bool.not_eq_true] at hK
      rw [hK]
      rfl

/-!  Claim theorems. -/

/-- C1: in VectorStore.search_similar each returned similarity score equals
1 / (1 + distance) of the entry distance; this transform sends distance 0
to similarity 1 and is strictly decreasing on distances; and the result list
is exactly the subsequence of rows whose derived similarity reaches
similarity_threshold, so every row strictly below the threshold is absent
and every row at or above it is kept. -/
theorem c1_similarity_transform_and_threshold :
    VectorStore.sim_of_dist 0 = 1 ∧
    (∀ d1 d2 : ℚ, 0 ≤ d1 → d1 < d2 →
      VectorStore.sim_of_dist d2 < VectorStore.sim_of_dist d1) ∧
    (∀ (θ : ℚ) (rows : List VectorStore.QueryRow),
      VectorStore.process_query_rows θ rows =
        (rows.filter (fun r => θ ≤ VectorStore.sim_of_dist r.distance)).map
          (fun r => { document := r.document, metadata := r.metadata,
                      similarity_score := VectorStore.sim_of_dist r.distance,
                      distance := r.distance })) ∧
    (∀ (θ : ℚ) (rows : List VectorStore.QueryRow),
      ∀ d ∈ VectorStore.process_query_rows θ rows,
        d.similarity_score = VectorStore.sim_of_dist d.distance ∧
          θ ≤ d.similarity_score) := by
  refine ⟨by norm_num [VectorStore.sim_of_dist], ?_, process_query_rows_eq_filter_map, ?_⟩
  · intro d1 d2 h1 h12
    have hpos : (0 : ℚ) < 1 + d1 := by linarith
    exact one_div_lt_one_div_of_lt hpos (by linarith)
  · intro θ rows d hd
    rw [process_query_rows_eq_filter_map] at hd
    simp only [List.mem_map, List.mem_filter, decide_eq_true_eq] at hd
    obtain ⟨r, ⟨hmem, hθ⟩, rfl⟩ := hd
    exact ⟨rfl, hθ⟩

/-- Witness for C1 at distances 0 and 1 and a concrete kept row. -/
theorem c1_witness :
    VectorStore.sim_of_dist 1 < VectorStore.sim_of_dist 0 ∧
    (c1_doc.similarity_score = VectorStore.sim_of_dist c1_doc.distance ∧
      (1 / 2 : ℚ) ≤ c1_doc.similarity_score) :=
  ⟨c1_similarity_transform_and_threshold.2.1 0 1 (by norm_num) (by norm_num),
    c1_similarity_transform_and_threshold.2.2.2 (1 / 2) [c1_row] c1_doc (by
      have h : (1 : ℚ) / 2 ≤ VectorStore.sim_of_dist c1_row.distance := by
        norm_num [VectorStore.sim_of_dist, c1_row]
      simp only [VectorStore.process_query_rows, if_pos h]
      exact List.mem_cons_self _ _)⟩

/-- C2: the metadata-flattening transform sends the example nested mapping
with keys a.b and a.c to exactly the flat mapping a_b, a_c with the list
serialized to a comma-joined string, and every value it ever outputs is a
scalar (string, int, float, bool or None), never a mapping. -/
theorem c2_flatten_metadata :
    VectorStore.flatten_metadata
        (.dict [("a", .dict [("b", .int 1), ("c", .list [.int 1, .int 2])])]) =
      [("a_b", .int 1), ("a_c", .str "1, 2")] ∧
    (∀ metadata, (VectorStore.flatten_metadata metadata).all
      (fun kv => VectorStore.isScalarVal kv.2) = true) ∧
    (∀ metadata, (VectorStore.flatten_metadata metadata).all
      (fun kv => match kv.2 with | VectorStore.PyVal.dict _ => false | _ => true) = true) := by
  refine ⟨?_, fun metadata => ensure_compatible_all_scalar _, ?_⟩
  · simp only [VectorStore.flatten_metadata, VectorStore.flatten_recursive]
    rfl
  · intro metadata
    have h := ensure_compatible_all_scalar (VectorStore.flatten_recursive metadata "" [])
    rw [List.all_eq_true] at h ⊢
    intro kv hkv
    have := h kv hkv
    cases hv : kv.2 <;> simp_all [VectorStore.isScalarVal]

/-- C5: the retriever post-processing keeps exactly the search results whose
metadata matches every filter key with an equal value (all results when
filter_metadata is None or empty), in order, and assigns relevance_rank
1, 2, ... in output order. -/
theorem c5_filter_and_rank :
    ∀ (docs : List VectorStore.SearchDoc) (query : List Char)
      (fm : Option (List (String × VectorStore.Scalar))),
      ((RAGRetriever.process_search_results docs query fm).map
          (fun r => r.relevance_rank) =
        List.range' 1 (RAGRetriever.process_search_results docs query fm).length) ∧
      ((RAGRetriever.process_search_results docs query fm).map
          (fun r => (r.content, r.metadata, r.similarity_score, r.distance)) =
        (docs.filter (fun d => (fm.getD []).all (fun kv =>
            match d.metadata.lookup kv.1 with
            | some v => VectorStore.Scalar.pyEq v kv.2
            | Option.none => false))).map
          (fun d => (d.document, d.metadata, d.similarity_score, d.distance))) := by
  intro docs query fm
  exact ⟨process_loop_map_rank query fm docs 0, process_loop_map_data query fm docs 0⟩

/-- C6: retrieve on an unready retriever returns the empty list, retrieve on
an empty or whitespace-only query returns the empty list, and index_chunks
on an unready retriever returns False; none of them raises (they are total
and return those values directly). -/
theorem c6_guards_return_empty :
    ∀ (default_top_k : Int) (default_threshold : ℚ) (max_query_length : Nat)
      (query : List Char) (tk : Option Int) (th : Option ℚ)
      (fm : Option (List (String × VectorStore.Scalar)))
      (pipeline : List Char → Int → ℚ → Except String (List VectorStore.SearchDoc))
      (chunks : List RAGRetriever.IndexChunk)
      (add : List (List Char) → Except String Bool),
      (RAGRetriever.retrieve false default_top_k default_threshold max_query_length
        query tk th fm pipeline = []) ∧
      (Py.strip query = [] → ∀ is_ready,
        RAGRetriever.retrieve is_ready default_top_k default_threshold max_query_length
          query tk th fm pipeline = []) ∧
      (RAGRetriever.index_chunks false chunks add = false) := by
  intro dtk dθ mql query tk th fm pipeline chunks add
  refine ⟨rfl, ?_, rfl⟩
  intro hq is_ready
  cases is_ready
  · rfl
  · unfold RAGRetriever.retrieve
    rw [if_neg (by simp), if_pos (Or.inr hq)]

/-- Witness for C6 on a whitespace-only query and an unready retriever. -/
theorem c6_witness :
    RAGRetriever.retrieve true 5 (7 / 10) 500 "   ".data Option.none Option.none
      Option.none (fun _ _ _ => .ok []) = [] ∧
    RAGRetriever.retrieve false 5 (7 / 10) 500 "x".data Option.none Option.none
      Option.none (fun _ _ _ => .ok []) = [] ∧
    RAGRetriever.index_chunks false [] (fun _ => .ok true) = false :=
  ⟨(c6_guards_return_empty 5 (7 / 10) 500 "   ".data Option.none Option.none
      Option.none (fun _ _ _ => .ok []) [] (fun _ => .ok true)).2.1 (by decide) true,
    (c6_guards_return_empty 5 (7 / 10) 500 "x".data Option.none Option.none
      Option.none (fun _ _ _ => .ok []) [] (fun _ => .ok true)).1,
    (c6_guards_return_empty 5 (7 / 10) 500 "x".data Option.none Option.none
      Option.none (fun _ _ _ => .ok []) [] (fun _ => .ok true)).2.2⟩

/-- C7: on a store whose backing collection is unset, add, search, delete and
clear all raise the not-initialized RuntimeError internally, and after the
except clause they signal failure (False, or the empty result list) and
leave the collection state unchanged. -/
theorem c7_uninitialized_store_fails :
    ∀ (documents : List (List Char)) (embeddings : List (List ℚ))
      (metadata : List VectorStore.PyVal) (ids : Option (List String))
      (query_rows : List VectorStore.QueryRow) (top_k : Int) (θ : ℚ)
      (del_ids : List String),
      VectorStore.add_documents_body Option.none documents embeddings metadata ids =
        .error VectorStore.not_ready_msg ∧
      VectorStore.add_documents Option.none documents embeddings metadata ids =
        (false, Option.none) ∧
      VectorStore.search_similar_body Option.none query_rows top_k θ =
        .error VectorStore.not_ready_msg ∧
      VectorStore.search_similar Option.none query_rows top_k θ = [] ∧
      VectorStore.delete_document_body Option.none del_ids =
        .error VectorStore.not_ready_msg ∧
      VectorStore.delete_document Option.none del_ids = (false, Option.none) ∧
      VectorStore.clear_collection_body Option.none =
        .error VectorStore.not_ready_msg ∧
      VectorStore.clear_collection Option.none = (false, Option.none) :=
  fun _ _ _ _ _ _ _ _ => ⟨rfl, rfl, rfl, rfl, rfl, rfl, rfl, rfl⟩

/-- C9: the embedding text cleaner removes every whitespace character, so any
input containing whitespace is changed by cleaning, and encode_text hands
the encoder the cleaned texts, not the originals. -/
theorem c9_clean_text_removes_whitespace :
    ∀ (t : List Char),
      ((EmbeddingModel.clean_text t).all (fun c => !c.isWhitespace) = true) ∧
      ((∃ c ∈ t, c.isWhitespace = true) → EmbeddingModel.clean_text t ≠ t) ∧
      (∀ {E : Type} (model : List (List Char) → E) (texts : List (List Char)),
        EmbeddingModel.encode_text model texts = model (texts.map EmbeddingModel.clean_text)) := by
  intro t
  refine ⟨?_, ?_, fun model texts => rfl⟩
  · rw [embedding_clean_text_eq_filter, List.all_eq_true]
    intro c hc
    exact (List.mem_filter.mp hc).2
  · rintro ⟨c, hc, hw⟩ heq
    rw [embedding_clean_text_eq_filter] at heq
    have := (List.filter_eq_self.mp heq) c hc
    simp [hw] at this

/-- Witness for C9: the string hello-space-world contains whitespace and is
cleaned to helloworld, a different string. -/
theorem c9_witness :
    (∃ c ∈ "hello world".data, c.isWhitespace = true) ∧
    EmbeddingModel.clean_text "hello world".data ≠ "hello world".data ∧
    EmbeddingModel.clean_text "hello world".data = "helloworld".data :=
  ⟨by decide, (c9_clean_text_removes_whitespace "hello world".data).2.1 (by decide),
    by decide⟩

/-- C10: passing top_k = 0 or similarity_threshold = 0.0 to retrieve is the
same as omitting the argument; the Python or-expression replaces the falsy
zero by the configured default. -/
theorem c10_zero_args_fall_back_to_defaults :
    ∀ (is_ready : Bool) (dtk : Int) (dθ : ℚ) (mql : Nat) (query : List Char)
      (tk : Option Int) (th : Option ℚ)
      (fm : Option (List (String × VectorStore.Scalar)))
      (pipeline : List Char → Int → ℚ → Except String (List VectorStore.SearchDoc)),
      RAGRetriever.py_or_int (some 0) dtk = dtk ∧
      RAGRetriever.py_or_rat (some 0) dθ = dθ ∧
      RAGRetriever.py_or_int Option.none dtk = dtk ∧
      RAGRetriever.py_or_rat Option.none dθ = dθ ∧
      RAGRetriever.retrieve is_ready dtk dθ mql query (some 0) th fm pipeline =
        RAGRetriever.retrieve is_ready dtk dθ mql query Option.none th fm pipeline ∧
      RAGRetriever.retrieve is_ready dtk dθ mql query tk (some 0) fm pipeline =
        RAGRetriever.retrieve is_ready dtk dθ mql query tk Option.none fm pipeline := by
  intro is_ready dtk dθ mql query tk th fm pipeline
  refine ⟨by simp [RAGRetriever.py_or_int], by simp [RAGRetriever.py_or_rat], rfl, rfl, ?_, ?_⟩
  · unfold RAGRetriever.retrieve
    simp [RAGRetriever.py_or_int]
  · unfold RAGRetriever.retrieve
    simp [RAGRetriever.py_or_rat]

namespace ChunkProcessor

theorem chunk_window_fst_length_le (chunk_size : Nat) (text : List Char) (start : Int) :
    (chunk_window chunk_size text start).1.length ≤ chunk_size := by
  have h0 : (Py.slice text start (start + chunk_size)).length ≤ chunk_size := by
    have := Py.slice_length_le_sub text start (start + chunk_size) (by omega)
    omega
  simp only [chunk_window]
  split_ifs with h1 h2
  · exact le_trans (Py.slice_length_le_self _ _ _) h0
  · exact h0
  · exact h0

theorem chunk_by_characters_loop_length_le (chunk_size chunk_overlap : Nat)
    (text : List Char) :
    ∀ (fuel : Nat) (start : Int),
      ∀ c ∈ chunk_by_characters_loop chunk_size chunk_overlap text fuel start,
        c.length ≤ chunk_size := by
  intro fuel
  induction fuel with
  | zero => intro start c hc; simp [chunk_by_characters_loop] at hc
  | succ fuel ih =>
    intro start c hc
    simp only [chunk_by_characters_loop] at hc
    split_ifs at hc with h1 h2
    · rcases List.mem_singleton.mp hc with rfl
      exact chunk_window_fst_length_le _ _ _
    · rcases List.mem_cons.mp hc with rfl | hmem
      · exact chunk_window_fst_length_le _ _ _
      · exact ih _ c hmem
    · simp at hc

theorem chunk_by_characters_length_le (chunk_size chunk_overlap : Nat) (text : List Char) :
    ∀ c ∈ chunk_by_characters chunk_size chunk_overlap text, c.length ≤ chunk_size :=
  fun c hc => chunk_by_characters_loop_length_le chunk_size chunk_overlap text _ 0 c hc

theorem getLastD_length_le (n : Nat) :
    ∀ (l : List (List Char)) (d : List Char),
      (∀ x ∈ l, x.length ≤ n) → d.length ≤ n → (l.getLastD d).length ≤ n := by
  intro l
  induction l with
  | nil => intro d _ hd; simpa [List.getLastD]
  | cons a as ih =>
    intro d h hd
    rw [List.getLastD_cons]
    exact ih a (fun x hx => h x (List.mem_cons_of_mem _ hx)) (h a (List.mem_cons_self _ _))

theorem flushed_mem (current c : List Char)
    (hc : c ∈ (if current = [] then ([] : List (List Char)) else [current])) :
    c = current := by
  split_ifs at hc
  · simp at hc
  · simpa using hc

theorem pack_sentences_loop_length_le (chunk_size chunk_overlap : Nat) :
    ∀ (sentences : List (List Char)) (current : List Char),
      current.length ≤ chunk_size →
      ∀ c ∈ pack_sentences_loop chunk_size chunk_overlap sentences current,
        c.length ≤ chunk_size := by
  intro sentences
  induction sentences with
  | nil =>
    intro current hcur c hc
    simp only [pack_sentences_loop] at hc
    split_ifs at hc with h
    · simp at hc
    · rcases List.mem_singleton.mp hc with rfl
      exact hcur
  | cons s rest ih =>
    intro current hcur c hc
    simp only [pack_sentences_loop] at hc
    by_cases hpot : ((if current = [] then s else current ++ ' ' :: s)).length ≤ chunk_size
    · rw [if_pos hpot] at hc
      exact ih _ hpot c hc
    · rw [if_neg hpot] at hc
      by_cases hs : chunk_size < s.length
      · rw [if_pos hs] at hc
        rcases List.mem_append.mp hc with hc1 | hc2
        · rcases List.mem_append.mp hc1 with hc3 | hc4
          · rcases flushed_mem current c hc3 with rfl
            exact hcur
          · exact chunk_by_characters_length_le _ _ _ c (List.dropLast_subset _ hc4)
        · refine ih _ ?_ c hc2
          exact getLastD_length_le _ _ _
            (fun x hx => chunk_by_characters_length_le _ _ _ x hx) (by simp)
      · rw [if_neg hs] at hc
        rcases List.mem_append.mp hc with hc1 | hc2
        · rcases flushed_mem current c hc1 with rfl
          exact hcur
        · exact ih s (le_of_not_lt hs) c hc2

theorem overlap_source_length_le (chunk_overlap : Nat) (hov : 1 ≤ chunk_overlap)
    (prev : List Char) : (overlap_source chunk_overlap prev).length ≤ chunk_overlap := by
  unfold overlap_source
  split_ifs with h1 h2
  · omega
  · simp only [List.length_drop]
    omega
  · omega

theorem split_dot_space_mem_length :
    ∀ (cs acc : List Char), ∀ p ∈ split_dot_space cs acc, p.length ≤ cs.length + acc.length := by
  intro cs acc
  induction cs, acc using split_dot_space.induct with
  | case1 acc =>
    intro p hp
    simp only [split_dot_space] at hp
    rcases List.mem_singleton.mp hp with rfl
    simp
  | case2 rest acc ih =>
    intro p hp
    simp only [split_dot_space] at hp
    rcases List.mem_cons.mp hp with rfl | hmem
    · simp
    · have := ih p hmem
      simp only [List.length_cons, List.length_nil] at this ⊢
      omega
  | case3 c rest acc hne ih =>
    intro p hp
    rw [split_dot_space] at hp
    · have := ih p hp
      simp only [List.length_cons] at this ⊢
      omega
    · exact hne

theorem overlap_text_length_le (chunk_overlap : Nat) (hov : 1 ≤ chunk_overlap)
    (prev : List Char) : (overlap_text chunk_overlap prev).length ≤ chunk_overlap := by
  have hsrc := overlap_source_length_le chunk_overlap hov prev
  simp only [overlap_text]
  split_ifs with h
  · refine getLastD_length_le _ _ _ (fun x hx => ?_) (by simp)
    have := split_dot_space_mem_length (overlap_source chunk_overlap prev) [] x hx
    simp only [List.length_nil, Nat.add_zero] at this
    omega
  · exact hsrc

theorem add_overlap_loop_length_le (chunk_size chunk_overlap : Nat)
    (hov : 1 ≤ chunk_overlap) :
    ∀ (rest : List (List Char)) (prev : List Char),
      (∀ x ∈ rest, x.length ≤ chunk_size) →
      ∀ c ∈ add_overlap_loop chunk_overlap prev rest,
        c.length ≤ chunk_size + chunk_overlap + 1 := by
  intro rest
  induction rest with
  | nil => intro prev _ c hc; simp [add_overlap_loop] at hc
  | cons cur rest ih =>
    intro prev h c hc
    simp only [add_overlap_loop] at hc
    rcases List.mem_cons.mp hc with rfl | hmem
    · have h1 := overlap_text_length_le chunk_overlap hov prev
      have h2 := h cur (List.mem_cons_self _ _)
      simp only [List.length_append, List.length_cons]
      omega
    · exact ih cur (fun x hx => h x (List.mem_cons_of_mem _ hx)) c hmem

theorem add_overlap_length_le (chunk_size chunk_overlap : Nat) (hov : 1 ≤ chunk_overlap)
    (chunks : List (List Char)) (h : ∀ x ∈ chunks, x.length ≤ chunk_size) :
    ∀ c ∈ add_overlap chunk_overlap chunks,
      c.length ≤ chunk_size + chunk_overlap + 1 := by
  intro c hc
  cases chunks with
  | nil => simp [add_overlap] at hc
  | cons c0 rest =>
    simp only [add_overlap] at hc
    split_ifs at hc with hrest
    · rcases List.mem_singleton.mp hc with rfl
      have := h c (List.mem_cons_self _ _)
      omega
    · rcases List.mem_cons.mp hc with rfl | hmem
      · have := h c (List.mem_cons_self _ _)
        omega
      · exact add_overlap_loop_length_le chunk_size chunk_overlap hov rest c0
          (fun x hx => h x (List.mem_cons_of_mem _ hx)) c hmem

theorem chunk_by_sentences_length_le (chunk_size chunk_overlap : Nat)
    (hov : 1 ≤ chunk_overlap) (text : List Char) :
    ∀ c ∈ chunk_by_sentences chunk_size chunk_overlap text,
      c.length ≤ chunk_size + chunk_overlap + 1 := by
  intro c hc
  unfold chunk_by_sentences at hc
  exact add_overlap_length_le chunk_size chunk_overlap hov _
    (pack_sentences_loop_length_le chunk_size chunk_overlap _ [] (by simp)) c hc

theorem pre_chunks_length_le (chunk_size chunk_overlap : Nat) (hov : 1 ≤ chunk_overlap)
    (ps : Bool) (content : List Char) :
    ∀ t ∈ pre_chunks chunk_size chunk_overlap ps content,
      t.length ≤ chunk_size + chunk_overlap + 1 := by
  intro t ht
  unfold pre_chunks at ht
  cases ps
  · simp only [Bool.false_eq_true, if_false] at ht
    have := chunk_by_characters_length_le chunk_size chunk_overlap _ t ht
    omega
  · simp only [if_true] at ht
    exact chunk_by_sentences_length_le chunk_size chunk_overlap hov _ t ht

theorem emit_loop_content_length_le (max_chunks : Nat) (src : String) (B : Nat) :
    ∀ (chunks : List (List Char)) (i count : Nat),
      (∀ t ∈ chunks, t.length ≤ B) →
      ∀ c ∈ emit_loop max_chunks src chunks i count, c.content.length ≤ B := by
  intro chunks
  induction chunks with
  | nil => intro i count _ c hc; simp [emit_loop] at hc
  | cons t rest ih =>
    intro i count h c hc
    simp only [emit_loop] at hc
    split_ifs at hc with h1 h2
    · exact ih _ _ (fun x hx => h x (List.mem_cons_of_mem _ hx)) c hc
    · rcases List.mem_singleton.mp hc with rfl
      exact le_trans (Py.strip_length_le t) (h t (List.mem_cons_self _ _))
    · rcases List.mem_cons.mp hc with rfl | hmem
      · exact le_trans (Py.strip_length_le t) (h t (List.mem_cons_self _ _))
      · exact ih _ _ (fun x hx => h x (List.mem_cons_of_mem _ hx)) c hmem

theorem emit_loop_spec (max_chunks : Nat) (src : String) :
    ∀ (chunks : List (List Char)) (i count : Nat),
      List.Pairwise (fun a b => a.metadata.chunk_index < b.metadata.chunk_index)
        (emit_loop max_chunks src chunks i count) ∧
      ∀ c ∈ emit_loop max_chunks src chunks i count,
        i ≤ c.metadata.chunk_index ∧
        ∃ t, chunks[c.metadata.chunk_index - i]? = some t ∧
          c = mk_chunk src c.metadata.chunk_index t := by
  intro chunks
  induction chunks with
  | nil =>
    intro i count
    exact ⟨by simp [emit_loop], by simp [emit_loop]⟩
  | cons t rest ih =>
    intro i count
    simp only [emit_loop]
    split_ifs with h1 h2
    · obtain ⟨hp, hm⟩ := ih (i + 1) count
      refine ⟨hp, fun c hc => ?_⟩
      obtain ⟨hge, u, hu, hceq⟩ := hm c hc
      refine ⟨by omega, u, ?_, hceq⟩
      have hidx : c.metadata.chunk_index - i = (c.metadata.chunk_index - (i + 1)) + 1 := by
        omega
      rw [hidx, List.getElem?_cons_succ]
      exact hu
    · refine ⟨by simp, fun c hc => ?_⟩
      rcases List.mem_singleton.mp hc with rfl
      exact ⟨Nat.le_refl _, t, by simp [mk_chunk], rfl⟩
    · obtain ⟨hp, hm⟩ := ih (i + 1) (count + 1)
      constructor
      · refine List.Pairwise.cons (fun b hb => ?_) hp
        have := (hm b hb).1
        simp only [mk_chunk]
        omega
      · intro c hc
        rcases List.mem_cons.mp hc with rfl | hmem
        · exact ⟨Nat.le_refl _, t, by simp [mk_chunk], rfl⟩
        · obtain ⟨hge, u, hu, hceq⟩ := hm c hmem
          refine ⟨by omega, u, ?_, hceq⟩
          have hidx : c.metadata.chunk_index - i = (c.metadata.chunk_index - (i + 1)) + 1 := by
            omega
          rw [hidx, List.getElem?_cons_succ]
          exact hu

theorem emit_loop_eq_take (max_chunks : Nat) (src : String) :
    ∀ (chunks : List (List Char)) (i count : Nat), count < max_chunks →
      emit_loop max_chunks src chunks i count =
        (emit_nocap src chunks i).take (max_chunks - count) := by
  intro chunks
  induction chunks with
  | nil => intro i count h; simp [emit_loop, emit_nocap]
  | cons t rest ih =>
    intro i count h
    simp only [emit_loop, emit_nocap]
    split_ifs with h1 h2
    · exact ih (i + 1) count h
    · have hmc : max_chunks - count = 1 := by omega
      rw [hmc, List.take_succ_cons, List.take_zero]
    · have hmc : max_chunks - count = (max_chunks - (count + 1)) + 1 := by omega
      rw [hmc, List.take_succ_cons, ih (i + 1) (count + 1) (by omega)]

end ChunkProcessor

/-- C3 is false as stated: with chunk_size 60 and chunk_overlap 10 the
two-sentence document doc6060 (both sentences exactly 60 characters, so no
hard-split of an oversized sentence is involved) yields emitted chunks of
lengths 60 and 71, and 71 exceeds chunk_size + chunk_overlap = 70: the
space joining the overlap prefix to the chunk makes the bound off by one. -/
theorem c3_counterexample :
    ((ChunkProcessor.simple_sentence_split (ChunkProcessor.clean_text doc6060)).all
      (fun s => decide (s.length ≤ 60)) = true) ∧
    ((ChunkProcessor.process_document 60 10 100 true "doc" doc6060).map
      (fun c => c.content.length) = [60, 71]) := by
  exact ⟨by decide, by decide⟩

/-- C3 (amended): every chunk emitted by process_document has content length
at most chunk_size + chunk_overlap + 1; the extra one character is the space
the overlap injection inserts between the overlap text and the chunk.  The
hypothesis 1 ≤ chunk_overlap reflects the constructor, where a falsy overlap
argument is replaced by the positive configured default. -/
theorem c3_amended_chunk_size_bound (chunk_size chunk_overlap max_chunks : Nat)
    (ps : Bool) (src : String) (content : List Char) (hov : 1 ≤ chunk_overlap) :
    ∀ c ∈ ChunkProcessor.process_document chunk_size chunk_overlap max_chunks ps src content,
      c.content.length ≤ chunk_size + chunk_overlap + 1 := by
  intro c hc
  unfold ChunkProcessor.process_document at hc
  split_ifs at hc with h
  · simp at hc
  · exact ChunkProcessor.emit_loop_content_length_le max_chunks src
      (chunk_size + chunk_overlap + 1) _ 0 0
      (ChunkProcessor.pre_chunks_length_le chunk_size chunk_overlap hov ps content) c hc

/-- Witness for the amended C3 on the first chunk of doc6060. -/
theorem c3_amended_witness :
    ((ChunkProcessor.process_document 60 10 100 true "doc" doc6060).headD
      (ChunkProcessor.mk_chunk "doc" 0 [])).content.length ≤ 60 + 10 + 1 :=
  c3_amended_chunk_size_bound 60 10 100 true "doc" doc6060 (by norm_num) _ (by decide)

/-- C4 is false as stated: for doc4555 the first pre-filter chunk (45
characters) is discarded by the under-50 filter, and the single emitted
chunk carries chunk_index 1 even though its 0-based position in the emitted
sequence is 0 - chunk_index is the position in the pre-filter sequence. -/
theorem c4_counterexample :
    (ChunkProcessor.process_document 60 10 100 true "doc" doc4555).map
      (fun c => c.metadata.chunk_index) = [1] := by
  decide

/-- C4 (amended): emitted chunks appear in document order (their chunk_index
values are strictly increasing along the output), and each emitted chunk is
built from the pre-filter chunk located at position chunk_index of the
pre-filter chunk sequence - that is, chunk_index records the position in the
pre-filter sequence, which can differ from the position in the emitted
sequence once an under-50-character chunk has been skipped. -/
theorem c4_amended_chunk_index_is_pre_filter_position
    (chunk_size chunk_overlap max_chunks : Nat) (ps : Bool) (src : String)
    (content : List Char) :
    List.Pairwise (fun a b => a.metadata.chunk_index < b.metadata.chunk_index)
      (ChunkProcessor.process_document chunk_size chunk_overlap max_chunks ps src content) ∧
    ∀ c ∈ ChunkProcessor.process_document chunk_size chunk_overlap max_chunks ps src content,
      ∃ t, (ChunkProcessor.pre_chunks chunk_size chunk_overlap ps content)[c.metadata.chunk_index]? =
          some t ∧
        c = ChunkProcessor.mk_chunk src c.metadata.chunk_index t := by
  unfold ChunkProcessor.process_document
  split_ifs with h
  · exact ⟨List.Pairwise.nil, by simp⟩
  · obtain ⟨hp, hm⟩ := ChunkProcessor.emit_loop_spec max_chunks src
      (ChunkProcessor.pre_chunks chunk_size chunk_overlap ps content) 0 0
    refine ⟨hp, fun c hc => ?_⟩
    obtain ⟨_, t, ht, hceq⟩ := hm c hc
    refine ⟨t, ?_, hceq⟩
    simpa using ht

/-- Witness for the amended C4 on the emitted chunk of doc4555. -/
theorem c4_amended_witness :
    ∃ t, (ChunkProcessor.pre_chunks 60 10 true doc4555)[c4_first_chunk.metadata.chunk_index]? =
        some t ∧
      c4_first_chunk = ChunkProcessor.mk_chunk "doc" c4_first_chunk.metadata.chunk_index t :=
  (c4_amended_chunk_index_is_pre_filter_position 60 10 100 true "doc" doc4555).2
    c4_first_chunk (by decide)

/-- C8: process_document never emits more than max_chunks_per_doc chunks,
and whenever the filtered segmentation of the document would produce more
than max_chunks_per_doc chunks, it emits exactly max_chunks_per_doc (the
loop breaks once the cap is reached).  The hypothesis 1 ≤ max_chunks holds
in every reachable configuration (the processor pins it to the configured
100). -/
theorem c8_cap_enforcement (chunk_size chunk_overlap max_chunks : Nat) (ps : Bool)
    (src : String) (content : List Char) (hmax : 1 ≤ max_chunks) :
    (ChunkProcessor.process_document chunk_size chunk_overlap max_chunks ps src content).length ≤
      max_chunks ∧
    (max_chunks <
        (ChunkProcessor.emitted_nocap chunk_size chunk_overlap ps src content).length →
      (ChunkProcessor.process_document chunk_size chunk_overlap max_chunks ps src
        content).length = max_chunks) := by
  unfold ChunkProcessor.process_document ChunkProcessor.emitted_nocap
  split_ifs with h
  · exact ⟨by simp, by intro habs; simp at habs⟩
  · rw [ChunkProcessor.emit_loop_eq_take max_chunks src _ 0 0 (by omega)]
    rw [List.length_take]
    constructor
    · omega
    · intro habs
      omega

/-- Witness for C8 with cap 1 on doc6060, whose uncapped segmentation emits
two chunks. -/
theorem c8_witness :
    (1 : Nat) ≤ 1 ∧
    1 < (ChunkProcessor.emitted_nocap 60 10 true "doc" doc6060).length ∧
    (ChunkProcessor.process_document 60 10 1 true "doc" doc6060).length = 1 :=
  ⟨Nat.le_refl 1, by decide,
    (c8_cap_enforcement 60 10 1 true "doc" doc6060 (Nat.le_refl 1)).2 (by decide)⟩
